import Mathlib

/-!
Verification of the page-to-Markdown conversion pipeline
(`src/functions/readability.ts`, `@mozilla/readability` backend, and the
clipboard assembly step of `src/content-script.ts`).

The embedding models JavaScript strings as `String`/`List Char`, JavaScript
exceptions as an explicit `Except JsError` layer, the external
DOMParser/Readability library as an oracle parameter `Extractor`, and the
DOM document as the data the code actually reads from it (`body.outerHTML`
and the elements returned by `querySelectorAll("[data-test-render-count]")`
in document order).
-/

namespace PageToMarkdown

/-- A thrown JavaScript value: `some m` models an `Error` instance with
message `m`; `none` models a thrown non-`Error` value. -/
structure JsError where
  message : Option String
deriving Repr, DecidableEq

/-- `ConvertResult` from `types.ts`: success with markdown, or failure with
an error message. -/
inductive ConvertResult where
  | ok (markdown : String)
  | err (error : String)
deriving Repr, DecidableEq

/-- `ReadabilityExtractResult` from `types.ts` (the non-null case); each
field is `T | null | undefined` in the source, modelled as `Option`. -/
structure ExtractResult where
  title : Option String := none
  content : Option String := none
  textContent : Option String := none
  extractLength : Option Int := none
  excerpt : Option String := none
  byline : Option String := none
  dir : Option String := none
deriving Repr, DecidableEq

/-- The external DOMParser + Readability boundary: given an HTML string it
either returns a parse result (`none` models the library returning `null`)
or throws. -/
abbrev Extractor : Type := String → Except JsError (Option ExtractResult)

/-- The DOM document, as read by the code: `body = none` models a document
whose `body` is `null`; `claudeElements` is the `outerHTML` of each element
bearing `data-test-render-count`, in document order. -/
structure Document where
  body : Option String
  claudeElements : List String
deriving Repr, DecidableEq

/- Constants from `readability.ts`. -/

def DEFAULT_ERROR_MESSAGE : String := "ページの変換に失敗しました"
def CONTENT_PROPERTY_ERROR : String := "抽出されたコンテンツにcontentプロパティがありません"
def EMPTY_MARKDOWN_ERROR : String := "変換されたマークダウンが空です"
def EXTRACTION_ERROR : String := "記事内容の抽出に失敗しました"
def CLAUDE_AI_DOMAIN : String := "claude.ai"
def SECTION_SEPARATOR : String := "\n\n---\n\n"
def CLAUDE_AI_NO_ELEMENTS_ERROR : String := "claude.aiで対象要素が見つかりませんでした"

/-! ## JavaScript string primitives -/

/-- The character class of the JavaScript regex `\s`, which is also the set
trimmed by `String.prototype.trim` (ECMAScript WhiteSpace + LineTerminator). -/
def jsIsSpace (c : Char) : Bool :=
  let n := c.toNat
  n == 9 || n == 10 || n == 11 || n == 12 || n == 13 || n == 32 ||
  n == 0xa0 || n == 0x1680 || (0x2000 ≤ n && n ≤ 0x200a) ||
  n == 0x2028 || n == 0x2029 || n == 0x202f || n == 0x205f ||
  n == 0x3000 || n == 0xfeff

/-- JavaScript `String.prototype.trim` on a character list. -/
def jsTrimL (l : List Char) : List Char :=
  ((l.dropWhile jsIsSpace).reverse.dropWhile jsIsSpace).reverse

/-- JavaScript `String.prototype.trim`. -/
def jsTrim (s : String) : String := String.mk (jsTrimL s.data)

/-- Anchored literal match: if `pat` is a prefix of `s` (case-insensitively
when `ci` is true, mirroring the regex `i` flag), return the remainder of
`s` after the match. -/
def matchPat (ci : Bool) : List Char → List Char → Option (List Char)
  | [], s => some s
  | _ :: _, [] => none
  | p :: ps, c :: cs =>
    if (if ci then p.toLower == c.toLower else p == c) then matchPat ci ps cs
    else none

/-- JavaScript `String.prototype.includes`: the needle occurs as a
contiguous substring of the haystack. -/
def containsSubstr (needle : List Char) : List Char → Bool
  | [] => needle.isPrefixOf []
  | c :: rest => needle.isPrefixOf (c :: rest) || containsSubstr needle rest

/-! ## The pattern-substitution renderer `convertHtmlToMarkdown`

Each `.replace(regex, ...)` call of the source is embedded as one scan
(`replaceScanF`) over the character list with an anchored matcher (`Tm`)
for that specific regex, applied left to right exactly as a global
JavaScript replace does. -/

/-- An anchored matcher: at a position whose first character is `c` and
remaining characters are `rest`, either fail, or return the replacement
text together with the characters remaining after the matched span. -/
abbrev Tm : Type := Char → List Char → Option (List Char × List Char)

/-- Regex alternation: try each pattern in order as an anchored prefix. -/
def firstMatch (ci : Bool) (pats : List (List Char)) (s : List Char) :
    Option (List Char) :=
  match pats with
  | [] => none
  | p :: ps =>
    match matchPat ci p s with
    | some rem => some rem
    | none => firstMatch ci ps s

/-- The lazy group `(.*?)` followed by one of `closings`: capture the
shortest span after which a closing pattern matches.  `dotAll` is the
regex `s` flag; without it `.` cannot consume a newline. -/
def lazyUpto (ci dotAll : Bool) (closings : List (List Char)) :
    List Char → Option (List Char × List Char)
  | [] =>
    match firstMatch ci closings [] with
    | some rem => some ([], rem)
    | none => none
  | c :: cs =>
    match firstMatch ci closings (c :: cs) with
    | some rem => some ([], rem)
    | none =>
      if !dotAll && c == '\n' then none
      else
        match lazyUpto ci dotAll closings cs with
        | some (cap, rem) => some (c :: cap, rem)
        | none => none

/-- `[^>]*>`: a greedy run of non-`>` characters followed by `>`.  The
class excludes the closing literal, so this is deterministic. -/
def afterGtRun (s : List Char) : Option (List Char) :=
  match s.dropWhile (fun c => !(c == '>')) with
  | '>' :: rest => some rest
  | _ => none

/-- The common tag shape `TAG[^>]*>(.*?)CLOSE` anchored at `s`, returning
the lazy capture and the remainder after the closing tag. -/
def simpleTagMatch (dotAll : Bool) (tag : List Char)
    (closings : List (List Char)) (s : List Char) :
    Option (List Char × List Char) :=
  match matchPat true tag s with
  | none => none
  | some s1 =>
    match afterGtRun s1 with
    | none => none
    | some s2 => lazyUpto true dotAll closings s2

/-- Backtracking candidates for a greedy `[^>]*` before a required literal:
the remainders after consuming `i` non-`>` characters, longest `i` first
(the order a backtracking regex engine tries them in). -/
def greedySplits (s : List Char) : List (List Char) :=
  let n := (s.takeWhile (fun c => !(c == '>'))).length
  ((List.range (n + 1)).reverse).map (fun i => s.drop i)

/-- The quote character class `["']` of the source regexes. -/
def isQuote (c : Char) : Bool := c == '"' || c == '\x27'

/-- `["']([^"']*)["']`: a quote, a capture of non-quote characters, and a
closing quote (not required to equal the opening one, as in the source). -/
def quotedCapture (s : List Char) : Option (List Char × List Char) :=
  match s with
  | [] => none
  | c :: cs =>
    if isQuote c then
      let cap := cs.takeWhile (fun d => !(isQuote d))
      match cs.drop cap.length with
      | d :: rest => if isQuote d then some (cap, rest) else none
      | [] => none
    else none

/-- `.replace(/<hN[^>]*>(.*?)<\/hN>/gi, "#·×N $1\n\n")` for `N = lvl`. -/
def headingTm (lvl : Nat) : Tm := fun c rest =>
  let nm := 'h' :: (Nat.repr lvl).data
  match simpleTagMatch false ('<' :: nm) ['<' :: '/' :: nm ++ ['>']] (c :: rest) with
  | some (cap, rem) =>
    some (List.replicate lvl '#' ++ ' ' :: cap ++ ['\n', '\n'], rem)
  | none => none

/-- `.replace(/<p[^>]*>(.*?)<\/p>/gi, "$1\n\n")`. -/
def pTm : Tm := fun c rest =>
  match simpleTagMatch false ['<', 'p'] [['<', '/', 'p', '>']] (c :: rest) with
  | some (cap, rem) => some (cap ++ ['\n', '\n'], rem)
  | none => none

/-- `<(n₁|n₂)[^>]*>(.*?)<\/(n₁|n₂)>` wrapped in `wrap` on both sides
(the `strong|b` and `em|i` replaces). -/
def wrapTm (names : List (List Char)) (wrap : List Char) : Tm := fun c rest =>
  if c == '<' then
    match firstMatch true names rest with
    | some s1 =>
      match afterGtRun s1 with
      | none => none
      | some s2 =>
        match lazyUpto true false (names.map (fun nm => '<' :: '/' :: nm ++ ['>'])) s2 with
        | some (cap, rem) => some (wrap ++ cap ++ wrap, rem)
        | none => none
    | none => none
  else none

/-- `.replace(/<code[^>]*>(.*?)<\/code>/gi, backtick $1 backtick)`. -/
def codeTm : Tm := fun c rest =>
  match simpleTagMatch false ('<' :: ("code").data) [("</code>").data] (c :: rest) with
  | some (cap, rem) => some ('\x60' :: cap ++ ['\x60'], rem)
  | none => none

/-- `.replace(/<pre[^>]*>(.*?)<\/pre>/gi, "```\n$1\n```\n\n")`. -/
def preTm : Tm := fun c rest =>
  match simpleTagMatch false ('<' :: ("pre").data) [("</pre>").data] (c :: rest) with
  | some (cap, rem) => some (("```\n").data ++ cap ++ ("\n```\n\n").data, rem)
  | none => none

/-- `.replace(/<a[^>]*href=["']([^"']*)["'][^>]*>(.*?)<\/a>/gi, "[$2]($1)")`. -/
def aTm : Tm := fun c rest =>
  match matchPat true ('<' :: ("a").data) (c :: rest) with
  | none => none
  | some s1 =>
    (greedySplits s1).findSome? (fun s2 =>
      match matchPat true ("href=").data s2 with
      | none => none
      | some s3 =>
        match quotedCapture s3 with
        | none => none
        | some (cap1, s5) =>
          match afterGtRun s5 with
          | none => none
          | some s6 =>
            match lazyUpto true false [("</a>").data] s6 with
            | some (cap2, rem) =>
              some ('[' :: cap2 ++ ']' :: '(' :: cap1 ++ [')'], rem)
            | none => none)

/-- First img replace: `src=` before `alt=`, producing `![$2]($1)`. -/
def imgSrcAltTm : Tm := fun c rest =>
  match matchPat true ('<' :: ("img").data) (c :: rest) with
  | none => none
  | some s1 =>
    (greedySplits s1).findSome? (fun s2 =>
      match matchPat true ("src=").data s2 with
      | none => none
      | some s3 =>
        match quotedCapture s3 with
        | none => none
        | some (cap1, s4) =>
          (greedySplits s4).findSome? (fun s5 =>
            match matchPat true ("alt=").data s5 with
            | none => none
            | some s6 =>
              match quotedCapture s6 with
              | none => none
              | some (cap2, s7) =>
                match afterGtRun s7 with
                | some rem =>
                  some (("![").data ++ cap2 ++ ']' :: '(' :: cap1 ++ [')'], rem)
                | none => none))

/-- Second img replace: `alt=` before `src=`, producing `![$1]($2)`. -/
def imgAltSrcTm : Tm := fun c rest =>
  match matchPat true ('<' :: ("img").data) (c :: rest) with
  | none => none
  | some s1 =>
    (greedySplits s1).findSome? (fun s2 =>
      match matchPat true ("alt=").data s2 with
      | none => none
      | some s3 =>
        match quotedCapture s3 with
        | none => none
        | some (cap1, s4) =>
          (greedySplits s4).findSome? (fun s5 =>
            match matchPat true ("src=").data s5 with
            | none => none
            | some s6 =>
              match quotedCapture s6 with
              | none => none
              | some (cap2, s7) =>
                match afterGtRun s7 with
                | some rem =>
                  some (("![").data ++ cap1 ++ ']' :: '(' :: cap2 ++ [')'], rem)
                | none => none))

/-- Third img replace: `src=` only, producing `![]($1)`. -/
def imgSrcTm : Tm := fun c rest =>
  match matchPat true ('<' :: ("img").data) (c :: rest) with
  | none => none
  | some s1 =>
    (greedySplits s1).findSome? (fun s2 =>
      match matchPat true ("src=").data s2 with
      | none => none
      | some s3 =>
        match quotedCapture s3 with
        | none => none
        | some (cap1, s4) =>
          match afterGtRun s4 with
          | some rem => some (("![](").data ++ cap1 ++ [')'], rem)
          | none => none)

/-- The inner `<li[^>]*>(.*?)<\/li>` (flags `gi`, no `s`). -/
def liMatch (s : List Char) : Option (List Char × List Char) :=
  simpleTagMatch false ("<li").data [("</li>").data] s

/-- The `ul` replacer runs `content.replace(/<li...>/gi, "- $1\n")`:
a string replacement, so `$1` is the real capture here. -/
def ulItemsF : Nat → List Char → List Char
  | _, [] => []
  | 0, s => s
  | fuel + 1, c :: rest =>
    match liMatch (c :: rest) with
    | some (cap, rem) =>
      '-' :: ' ' :: cap ++ '\n' :: ulItemsF fuel (rest.drop (rest.length - rem.length))
    | none => c :: ulItemsF fuel rest

/-- The `ol` replacer runs the inner li replace with a *function* replacer
returning the template string `${counter++}. $1\n`; a function replacer
performs no `$1` substitution, so the two characters `$1` appear literally
and the item text is dropped. -/
def olItemsF : Nat → Nat → List Char → List Char
  | _, _, [] => []
  | 0, _, s => s
  | fuel + 1, counter, c :: rest =>
    match liMatch (c :: rest) with
    | some (_, rem) =>
      (Nat.repr counter).data ++ '.' :: ' ' :: '$' :: '1' :: '\n' ::
        olItemsF fuel (counter + 1) (rest.drop (rest.length - rem.length))
    | none => c :: olItemsF fuel counter rest

/-- `.replace(/<ul[^>]*>(.*?)<\/ul>/gis, content => liReplace(content) + "\n")`. -/
def ulTm : Tm := fun c rest =>
  match simpleTagMatch true ('<' :: ("ul").data) [("</ul>").data] (c :: rest) with
  | some (cap, rem) => some (ulItemsF cap.length cap ++ ['\n'], rem)
  | none => none

/-- `.replace(/<ol[^>]*>(.*?)<\/ol>/gis, content => olReplace(content) + "\n")`
with the per-match counter starting at 1. -/
def olTm : Tm := fun c rest =>
  match simpleTagMatch true ('<' :: ("ol").data) [("</ol>").data] (c :: rest) with
  | some (cap, rem) => some (olItemsF cap.length 1 cap ++ ['\n'], rem)
  | none => none

/-- `.replace(/<br[^>]*>/gi, "\n")`. -/
def brTm : Tm := fun c rest =>
  match matchPat true ('<' :: ("br").data) (c :: rest) with
  | none => none
  | some s1 =>
    match afterGtRun s1 with
    | some rem => some (['\n'], rem)
    | none => none

/-- `.replace(/<[^>]+>/g, "")`: raw tag stripping. -/
def stripTm : Tm := fun c rest =>
  if c == '<' then
    let run := rest.takeWhile (fun d => !(d == '>'))
    if run.isEmpty then none
    else
      match rest.drop run.length with
      | '>' :: rem => some ([], rem)
      | _ => none
  else none

/-- A case-sensitive literal replace (the five HTML-entity decodes). -/
def literalTm (pat rep : List Char) : Tm := fun c rest =>
  match matchPat false pat (c :: rest) with
  | some rem => some (rep, rem)
  | none => none

/-- Index of the last occurrence of `a`. -/
def lastIdxOf (a : Char) : List Char → Option Nat
  | [] => none
  | c :: rest =>
    match lastIdxOf a rest with
    | some i => some (i + 1)
    | none => if c == a then some 0 else none

/-- `.replace(/\n\s*\n\s*\n/g, "\n\n")`: anchored at a newline, the pattern
matches exactly when the following maximal whitespace run contains at least
two more newlines, and (greedily) consumes through the last of them. -/
def collapseTm : Tm := fun c rest =>
  if c == '\n' then
    let w := rest.takeWhile jsIsSpace
    if 2 ≤ w.count '\n' then
      match lastIdxOf '\n' w with
      | some j => some (['\n', '\n'], rest.drop (j + 1))
      | none => none
    else none
  else none

/-- One global `.replace`: scan left to right; at a match emit the
replacement and continue after the matched span, otherwise keep the
character and move on.  Fuelled with the input length (every match consumes
at least one character, so the fuel never runs out). -/
def replaceScanF (tm : Tm) : Nat → List Char → List Char
  | _, [] => []
  | 0, s => s
  | fuel + 1, c :: rest =>
    match tm c rest with
    | some (rep, rem) =>
      rep ++ replaceScanF tm fuel (rest.drop (rest.length - rem.length))
    | none => c :: replaceScanF tm fuel rest

/-- One `.replace(...)` stage of the source chain. -/
def replaceStage (tm : Tm) (s : List Char) : List Char :=
  replaceScanF tm s.length s

/-- `convertHtmlToMarkdown` from `readability.ts`: the ordered chain of
tag substitutions, tag stripping, entity decoding, newline collapsing, and
a final `.trim()`. -/
def convertHtmlToMarkdownL (html : List Char) : List Char :=
  html
  |> replaceStage (headingTm 1)
  |> replaceStage (headingTm 2)
  |> replaceStage (headingTm 3)
  |> replaceStage (headingTm 4)
  |> replaceStage (headingTm 5)
  |> replaceStage (headingTm 6)
  |> replaceStage pTm
  |> replaceStage (wrapTm [("strong").data, ("b").data] ['*', '*'])
  |> replaceStage (wrapTm [("em").data, ("i").data] ['*'])
  |> replaceStage codeTm
  |> replaceStage preTm
  |> replaceStage aTm
  |> replaceStage imgSrcAltTm
  |> replaceStage imgAltSrcTm
  |> replaceStage imgSrcTm
  |> replaceStage ulTm
  |> replaceStage olTm
  |> replaceStage brTm
  |> replaceStage stripTm
  |> replaceStage (literalTm ('&' :: ("amp;").data) ['&'])
  |> replaceStage (literalTm ('&' :: ("lt;").data) ['<'])
  |> replaceStage (literalTm ('&' :: ("gt;").data) ['>'])
  |> replaceStage (literalTm ('&' :: ("quot;").data) ['"'])
  |> replaceStage (literalTm ('&' :: ("#39;").data) ['\x27'])
  |> replaceStage collapseTm
  |> jsTrimL

/-- String-level wrapper for `convertHtmlToMarkdown`. -/
def convertHtmlToMarkdown (html : String) : String :=
  String.mk (convertHtmlToMarkdownL html.data)

/-! ## The conversion pipeline of `readability.ts` -/

/-- `isClaudeAiSite`:
`globalThis.location?.hostname.includes("claude.ai") ?? false`.
`loc` is the ambient hostname; `none` models an absent `location`. -/
def isClaudeAiSite (loc : Option String) : Bool :=
  match loc with
  | some hostname => containsSubstr CLAUDE_AI_DOMAIN.data hostname.data
  | none => false

/-- `extractClaudeAiElements`: `querySelectorAll("[data-test-render-count]")`
in document order, each element represented by its `outerHTML`. -/
def extractClaudeAiElements (doc : Document) : List String :=
  doc.claudeElements

/-- `extractPageContent`: run the external parser/Readability oracle inside
`try { ... } catch { return null; }`. -/
def extractPageContent (extract : Extractor) (html : String) :
    Option ExtractResult :=
  match extract html with
  | .ok r => r
  | .error _ => none

/-- `convertToMarkdown`: throws `EXTRACTION_ERROR` on a null argument and
`CONTENT_PROPERTY_ERROR` when the `content` field is missing, empty, or
blank after trimming (`!content || content.trim() === ""`); otherwise
renders the content. -/
def convertToMarkdown (extractedContent : Option ExtractResult) :
    Except JsError String :=
  match extractedContent with
  | none => .error ⟨some EXTRACTION_ERROR⟩
  | some ec =>
    match ec.content with
    | none => .error ⟨some CONTENT_PROPERTY_ERROR⟩
    | some content =>
      if content == "" || jsTrim content == "" then
        .error ⟨some CONTENT_PROPERTY_ERROR⟩
      else .ok (convertHtmlToMarkdown content)

/-- `convertElementToMarkdown`: extract and render a single element inside
`try { ... } catch { return null; }`; a null extraction also yields null. -/
def convertElementToMarkdown (extract : Extractor) (element : String) :
    Option String :=
  match extractPageContent extract element with
  | none => none
  | some ec =>
    match convertToMarkdown (some ec) with
    | .ok markdown => some markdown
    | .error _ => none

/-- `convertElementsToMarkdownSections`: the loop that pushes
`markdown.trim()` for each element whose conversion is non-null and
non-blank (`if (markdown && markdown.trim())`). -/
def convertElementsToMarkdownSections (extract : Extractor)
    (elements : List String) : List String :=
  elements.foldl
    (fun acc element =>
      match convertElementToMarkdown extract element with
      | some markdown =>
        if jsTrim markdown == "" then acc else acc ++ [jsTrim markdown]
      | none => acc)
    []

/-- JavaScript `Array.prototype.join`. -/
def joinSep (sep : String) : List String → String
  | [] => ""
  | [s] => s
  | s :: rest => s ++ sep ++ joinSep sep rest

/-- `combineMarkdownSections`: `sections.join(SECTION_SEPARATOR)`. -/
def combineMarkdownSections (sections : List String) : String :=
  joinSep SECTION_SEPARATOR sections

/-- `processClaudeAiPage`.  In the embedding every step inside its `try`
block is a total value computation (element-level failures are already
values), so the surrounding `catch` can never fire and is omitted. -/
def processClaudeAiPage (extract : Extractor) (doc : Document) :
    ConvertResult :=
  let elements := extractClaudeAiElements doc
  if elements.length == 0 then
    ConvertResult.err CLAUDE_AI_NO_ELEMENTS_ERROR
  else
    let markdownSections := convertElementsToMarkdownSections extract elements
    if markdownSections.length == 0 then
      ConvertResult.err EMPTY_MARKDOWN_ERROR
    else
      ConvertResult.ok (combineMarkdownSections markdownSections)

/-- Modelled DOM behavior: reading `document.body.outerHTML` throws a
`TypeError` (an `Error` instance; the message is engine-specific) when
`body` is null. -/
def bodyNullError : JsError :=
  ⟨some "Cannot read properties of null (reading outerHTML)"⟩

/-- `document.body.outerHTML` as an exception-throwing read. -/
def getBodyOuterHTML (doc : Document) : Except JsError String :=
  match doc.body with
  | some html => .ok html
  | none => .error bodyNullError

/-- The `try` block of `convertPageToMarkdown`: any thrown error is
propagated to the surrounding `catch`. -/
def genericTryBody (extract : Extractor) (doc : Document) :
    Except JsError ConvertResult :=
  match getBodyOuterHTML doc with
  | .error e => .error e
  | .ok html =>
    match extractPageContent extract html with
    | none => .ok (ConvertResult.err EXTRACTION_ERROR)
    | some ec =>
      match convertToMarkdown (some ec) with
      | .error e => .error e
      | .ok markdown =>
        if jsTrim markdown == "" then
          .ok (ConvertResult.err EMPTY_MARKDOWN_ERROR)
        else .ok (ConvertResult.ok markdown)

/-- The `catch` arm shared by `convertPageToMarkdown` and
`processClaudeAiPage`: `error instanceof Error ? error.message :
DEFAULT_ERROR_MESSAGE`. -/
def errorToMessage (e : JsError) : String :=
  match e.message with
  | some m => m
  | none => DEFAULT_ERROR_MESSAGE

/-- The generic (non-claude) path of `convertPageToMarkdown`: the `try`
block with its `catch` converting any thrown error into `Err`. -/
def genericPath (extract : Extractor) (doc : Document) : ConvertResult :=
  match genericTryBody extract doc with
  | .ok r => r
  | .error e => ConvertResult.err (errorToMessage e)

/-- `convertPageToMarkdown`, the public entry point. -/
def convertPageToMarkdown (extract : Extractor) (loc : Option String)
    (doc : Document) : ConvertResult :=
  if isClaudeAiSite loc then processClaudeAiPage extract doc
  else genericPath extract doc

/-! ## The clipboard assembly of `content-script.ts` -/

def MARKDOWN_SEPARATOR : String := "\n\n---\n\n"

/-- `createMarkdownHeader`: `document.title || "無題"` and
`globalThis.location?.href || ""`. -/
def createMarkdownHeader (title : String) (href : Option String) : String :=
  let t := if title == "" then "無題" else title
  let u :=
    match href with
    | some u => if u == "" then "" else u
    | none => ""
  "# " ++ t ++ "\n\nURL: " ++ u

/-- The text `handleConvertToMarkdown` hands to `copyToClipboard`:
`` `${header}${MARKDOWN_SEPARATOR}${result.markdown}` `` on success, and no
clipboard write at all on failure. -/
def clipboardPayload (result : ConvertResult) (title : String)
    (href : Option String) : Option String :=
  match result with
  | ConvertResult.ok markdown =>
    some (createMarkdownHeader title href ++ MARKDOWN_SEPARATOR ++ markdown)
  | ConvertResult.err _ => none

/-! ## Helper lemmas: characters and case-insensitive matching -/

theorem toNat_ofNat_of_lt {m : Nat} (h : m < 55296) :
    (Char.ofNat m).toNat = m := by
  unfold Char.ofNat
  rw [dif_pos (Or.inl h)]
  unfold Char.ofNatAux
  simp [Char.toNat, UInt32.ofNat', UInt32.toNat]

/-- `toLower` fixes every character whose code is below 97, and maps
nothing else to such a character. -/
theorem toLower_eq_of_small {c t : Char} (ht : t.toNat < 97)
    (h : c.toLower = t) : c = t := by
  unfold Char.toLower at h
  simp only [] at h
  by_cases h65 : c.toNat ≥ 65 ∧ c.toNat ≤ 90
  · rw [if_pos h65] at h
    exfalso
    have h2 := congrArg Char.toNat h
    rw [toNat_ofNat_of_lt (by omega)] at h2
    omega
  · rwa [if_neg h65] at h

/-- A case-insensitive pattern starting with `'<'` cannot match at a
position whose character is not `'<'`. -/
theorem matchPat_lt_none {ps cs : List Char} {c : Char} (hc : c ≠ '<') :
    matchPat true ('<' :: ps) (c :: cs) = none := by
  have hlow : ¬ ('<' = c.toLower) := by
    intro h
    exact hc (toLower_eq_of_small (by decide) h.symm)
  simp only [matchPat]
  rw [if_neg]
  intro hEq
  have h1 : ('<').toLower = c.toLower := beq_iff_eq.mp (by simpa using hEq)
  exact hlow ((by decide : ('<').toLower = '<') ▸ h1)

/-- An exact pattern cannot match at a position whose character differs
from its first character. -/
theorem matchPat_exact_ne_none {p : Char} {ps cs : List Char} {c : Char}
    (hc : c ≠ p) : matchPat false (p :: ps) (c :: cs) = none := by
  have : ¬ (p == c) = true := by
    intro hEq
    exact hc (beq_iff_eq.mp hEq).symm
  simp [matchPat, this]

/-- An exact match means the pattern is a prefix of the scanned text. -/
theorem matchPat_exact_prefix :
    ∀ {pat l rem : List Char}, matchPat false pat l = some rem →
      pat <+: l := by
  intro pat
  induction pat with
  | nil => intro l rem _; exact List.nil_prefix
  | cons p ps ih =>
    intro l rem h
    cases l with
    | nil => simp [matchPat] at h
    | cons c cs =>
      by_cases hpc : p = c
      · subst hpc
        simp only [matchPat, Bool.false_eq_true, if_false, beq_self_eq_true,
          if_true] at h
        obtain ⟨t, ht⟩ := ih h
        exact ⟨t, by simp [ht]⟩
      · rw [matchPat_exact_ne_none (fun hcp => hpc hcp.symm)] at h
        exact absurd h (by simp)

/-! ## Helper lemmas: scan identity -/

/-- If the matcher fires at no suffix of `s`, the scan leaves `s`
unchanged (for any fuel). -/
theorem replaceScanF_id {tm : Tm} {s : List Char}
    (h : ∀ c rest, (c :: rest) <:+ s → tm c rest = none) :
    ∀ fuel, replaceScanF tm fuel s = s := by
  induction s with
  | nil => intro fuel; cases fuel <;> rfl
  | cons c rest ih =>
    intro fuel
    cases fuel with
    | zero => rfl
    | succ n =>
      have h0 : tm c rest = none := h c rest ( List.suffix_refl _)
      have h1 := ih (fun c2 r2 hs => h c2 r2 (hs.trans ( List.suffix_cons c rest))) n
      simp only [replaceScanF, h0, h1]

/-- Stage form of `replaceScanF_id`. -/
theorem replaceStage_id {tm : Tm} {s : List Char}
    (h : ∀ c rest, (c :: rest) <:+ s → tm c rest = none) :
    replaceStage tm s = s :=
  replaceScanF_id h s.length

/-! ## Helper lemmas: which stages can fire where -/

theorem simpleTagMatch_lt_none {dotAll : Bool} {nm : List Char}
    {closings : List (List Char)} {c : Char} {rest : List Char}
    (hc : c ≠ '<') :
    simpleTagMatch dotAll ('<' :: nm) closings (c :: rest) = none := by
  simp only [simpleTagMatch, matchPat_lt_none hc]

theorem headingTm_not_lt {lvl : Nat} {c : Char} {rest : List Char}
    (hc : c ≠ '<') : headingTm lvl c rest = none := by
  simp only [headingTm, simpleTagMatch_lt_none hc]

theorem pTm_not_lt {c : Char} {rest : List Char} (hc : c ≠ '<') :
    pTm c rest = none := by
  simp only [pTm, simpleTagMatch_lt_none hc]

theorem wrapTm_not_lt {names : List (List Char)} {wrap : List Char}
    {c : Char} {rest : List Char} (hc : c ≠ '<') :
    wrapTm names wrap c rest = none := by
  simp [wrapTm, hc]

theorem codeTm_not_lt {c : Char} {rest : List Char} (hc : c ≠ '<') :
    codeTm c rest = none := by
  simp only [codeTm, simpleTagMatch_lt_none hc]

theorem preTm_not_lt {c : Char} {rest : List Char} (hc : c ≠ '<') :
    preTm c rest = none := by
  simp only [preTm, simpleTagMatch_lt_none hc]

theorem aTm_not_lt {c : Char} {rest : List Char} (hc : c ≠ '<') :
    aTm c rest = none := by
  simp only [aTm, matchPat_lt_none hc]

theorem imgSrcAltTm_not_lt {c : Char} {rest : List Char} (hc : c ≠ '<') :
    imgSrcAltTm c rest = none := by
  simp only [imgSrcAltTm, matchPat_lt_none hc]

theorem imgAltSrcTm_not_lt {c : Char} {rest : List Char} (hc : c ≠ '<') :
    imgAltSrcTm c rest = none := by
  simp only [imgAltSrcTm, matchPat_lt_none hc]

theorem imgSrcTm_not_lt {c : Char} {rest : List Char} (hc : c ≠ '<') :
    imgSrcTm c rest = none := by
  simp only [imgSrcTm, matchPat_lt_none hc]

theorem ulTm_not_lt {c : Char} {rest : List Char} (hc : c ≠ '<') :
    ulTm c rest = none := by
  simp only [ulTm, simpleTagMatch_lt_none hc]

theorem olTm_not_lt {c : Char} {rest : List Char} (hc : c ≠ '<') :
    olTm c rest = none := by
  simp only [olTm, simpleTagMatch_lt_none hc]

theorem brTm_not_lt {c : Char} {rest : List Char} (hc : c ≠ '<') :
    brTm c rest = none := by
  simp only [brTm, matchPat_lt_none hc]

theorem stripTm_not_lt {c : Char} {rest : List Char} (hc : c ≠ '<') :
    stripTm c rest = none := by
  simp [stripTm, hc]

/-- A literal (entity) replace firing at a position means the pattern
occurs there. -/
theorem literalTm_some_starts {pat rep : List Char} {c : Char}
    {rest x : List Char} {rem : List Char × List Char}
    (h : literalTm pat rep c rest = some rem) (hx : x = c :: rest) :
    pat <+: x := by
  subst hx
  unfold literalTm at h
  cases hm : matchPat false pat (c :: rest) with
  | none => rw [hm] at h; exact absurd h (by simp)
  | some r => exact matchPat_exact_prefix hm

theorem collapseTm_not_nl {c : Char} {rest : List Char} (hc : c ≠ '\n') :
    collapseTm c rest = none := by
  simp [collapseTm, hc]

/-- If a stage matcher never fires except at `'<'` and `'<'` does not
occur in `s`, the stage is the identity on `s`. -/
theorem replaceStage_id_of_no_lt {tm : Tm} {s : List Char}
    (htm : ∀ c rest, c ≠ '<' → tm c rest = none) (hs : '<' ∉ s) :
    replaceStage tm s = s := by
  apply replaceStage_id
  intro c rest hsuf
  apply htm
  intro hc
  subst hc
  exact hs (hsuf.subset ( List.mem_cons_self _ _))

/-! ## Helper lemmas: trimming -/

theorem dropWhile_nil_or_exists_not {p : Char → Bool} :
    ∀ l : List Char, l.dropWhile p = [] ∨
      ∃ c ∈ l.dropWhile p, p c = false := by
  intro l
  induction l with
  | nil => left; rfl
  | cons c t ih =>
    by_cases hpc : p c = true
    · rw [ List.dropWhile_cons_of_pos hpc]
      exact ih
    · right
      rw [ List.dropWhile_cons_of_neg hpc]
      exact ⟨c, List.mem_cons_self c t, by simpa using hpc⟩

/-- The result of a JavaScript trim is empty exactly when every character
of the input is whitespace. -/
theorem jsTrimL_eq_nil_iff {l : List Char} :
    jsTrimL l = [] ↔ ∀ c ∈ l, jsIsSpace c = true := by
  unfold jsTrimL
  constructor
  · intro h c hc
    have h1 : (l.dropWhile jsIsSpace).reverse.dropWhile jsIsSpace = [] := by
      have := congrArg List.reverse h
      simpa using this
    have h2 : ∀ c ∈ (l.dropWhile jsIsSpace).reverse, jsIsSpace c = true :=
      List.dropWhile_eq_nil_iff.mp h1
    have h3 : ∀ c ∈ l.dropWhile jsIsSpace, jsIsSpace c = true := by
      intro c hc
      exact h2 c ( List.mem_reverse.mpr hc)
    have h4 : c ∈ l.takeWhile jsIsSpace ++ l.dropWhile jsIsSpace := by
      rw [ List.takeWhile_append_dropWhile]
      exact hc
    rcases List.mem_append.mp h4 with h5 | h5
    · exact List.mem_takeWhile_imp h5
    · exact h3 c h5
  · intro h
    rw [ List.dropWhile_eq_nil_iff.mpr h]
    rfl

/-- A non-empty trim result contains a non-whitespace character. -/
theorem jsTrimL_ne_nil_exists {l : List Char} (h : jsTrimL l ≠ []) :
    ∃ c ∈ jsTrimL l, jsIsSpace c = false := by
  unfold jsTrimL at h ⊢
  rcases dropWhile_nil_or_exists_not (l.dropWhile jsIsSpace).reverse with h1 | h1
  · exact absurd (by rw [h1]; rfl) h
  · obtain ⟨c, hc, hcp⟩ := h1
    exact ⟨c, List.mem_reverse.mpr hc, hcp⟩

/-! ## Helper lemmas: the newline-collapse stage -/

/-- A list containing a character at least twice splits around two of its
occurrences. -/
theorem two_count_split {w : List Char} (h : 2 ≤ w.count '\n') :
    ∃ a b cpart, w = a ++ '\n' :: (b ++ '\n' :: cpart) := by
  have h1 : '\n' ∈ w := List.count_pos_iff.mp (by omega)
  obtain ⟨a, t, rfl⟩ := List.append_of_mem h1
  rw [ List.count_append, List.count_cons_self] at h
  by_cases h2 : '\n' ∈ t
  · obtain ⟨b, c2, rfl⟩ := List.append_of_mem h2
    exact ⟨a, b, c2, rfl⟩
  · have h3 : t.count '\n' = 0 := List.count_eq_zero.mpr h2
    have h5 : '\n' ∈ a := List.count_pos_iff.mp (by omega)
    obtain ⟨a1, a2, rfl⟩ := List.append_of_mem h5
    exact ⟨a1, a2, t, by simp⟩

/-- The newline-collapse regex matches somewhere only if the text contains
`\n`, whitespace, `\n`, whitespace, `\n` as a contiguous substring. -/
theorem collapseTm_some_occurs {c : Char} {rest : List Char} {s : List Char}
    {x : List Char × List Char} (h : collapseTm c rest = some x)
    (hsuf : (c :: rest) <:+ s) :
    ∃ w1 w2, (∀ d ∈ w1, jsIsSpace d = true) ∧ (∀ d ∈ w2, jsIsSpace d = true) ∧
      ('\n' :: (w1 ++ '\n' :: (w2 ++ ['\n']))) <:+: s := by
  unfold collapseTm at h
  by_cases hc : c = '\n'
  · subst hc
    simp only [if_pos rfl] at h
    by_cases hcnt : 2 ≤ (rest.takeWhile jsIsSpace).count '\n'
    · obtain ⟨a, b, cpart, hw⟩ := two_count_split hcnt
      have hwmem : ∀ d ∈ rest.takeWhile jsIsSpace, jsIsSpace d = true :=
        fun d hd => List.mem_takeWhile_imp hd
      refine ⟨a, b, ?_, ?_, ?_⟩
      · intro d hd
        exact hwmem d (by rw [hw]; simp [hd])
      · intro d hd
        exact hwmem d (by rw [hw]; simp [hd])
      · obtain ⟨t0, ht0⟩ :=
          (show rest.takeWhile jsIsSpace <+: rest from
            List.takeWhile_prefix jsIsSpace)
        have hrest : rest = a ++ '\n' :: b ++ '\n' :: (cpart ++ t0) := by
          rw [← ht0, hw]
          simp
        have hpre : ('\n' :: (a ++ '\n' :: (b ++ ['\n']))) <+: ('\n' :: rest) := by
          refine ⟨cpart ++ t0, ?_⟩
          rw [hrest]
          simp
        exact hpre.isInfix.trans hsuf.isInfix
    · rw [if_neg hcnt] at h
      exact absurd h (by simp)
  · have hc2 : ¬ ((c == '\n') = true) := by simpa using hc
    rw [if_neg hc2] at h
    exact absurd h (by simp)

/-! ## Helper lemmas: substring containment -/

/-- `containsSubstr` agrees with list infix containment. -/
theorem containsSubstr_iff {needle : List Char} :
    ∀ {hay : List Char}, containsSubstr needle hay = true ↔ needle <:+: hay := by
  intro hay
  induction hay with
  | nil =>
    simp only [containsSubstr, List.isPrefixOf_iff_prefix, List.prefix_nil,
      List.infix_nil]
  | cons c t ih =>
    simp only [containsSubstr, Bool.or_eq_true, List.isPrefixOf_iff_prefix, ih]
    exact ( List.infix_cons_iff).symm

/-! ## Helper lemmas: the renderer on tag-free text -/

/-- An entity-decode stage is the identity when its entity string does not
occur in the text. -/
theorem replaceStage_literal_id {pat rep : List Char} {s : List Char}
    (hnot : ¬ pat <:+: s) : replaceStage (literalTm pat rep) s = s := by
  apply replaceStage_id
  intro c rest hsuf
  cases hl : literalTm pat rep c rest with
  | none => rfl
  | some x =>
    exact absurd ((literalTm_some_starts hl rfl).isInfix.trans hsuf.isInfix) hnot

/-- The newline-collapse stage is the identity when no
`\n`-whitespace-`\n`-whitespace-`\n` span occurs in the text. -/
theorem replaceStage_collapse_id {s : List Char}
    (hcol : ¬ ∃ w1 w2, (∀ d ∈ w1, jsIsSpace d = true) ∧
        (∀ d ∈ w2, jsIsSpace d = true) ∧
        ('\n' :: (w1 ++ '\n' :: (w2 ++ ['\n']))) <:+: s) :
    replaceStage collapseTm s = s := by
  apply replaceStage_id
  intro c rest hsuf
  cases hl : collapseTm c rest with
  | none => rfl
  | some x => exact absurd (collapseTm_some_occurs hl hsuf) hcol

/-- On text with no `<`, no entity reference, and no collapsible newline
span, the whole renderer reduces to `trim`. -/
theorem convertHtmlToMarkdownL_plain {s : List Char}
    (hlt : '<' ∉ s)
    (hamp : ¬ ('&' :: ("amp;").data) <:+: s)
    (hltE : ¬ ('&' :: ("lt;").data) <:+: s)
    (hgtE : ¬ ('&' :: ("gt;").data) <:+: s)
    (hquot : ¬ ('&' :: ("quot;").data) <:+: s)
    (hapos : ¬ ('&' :: ("#39;").data) <:+: s)
    (hcol : ¬ ∃ w1 w2, (∀ d ∈ w1, jsIsSpace d = true) ∧
        (∀ d ∈ w2, jsIsSpace d = true) ∧
        ('\n' :: (w1 ++ '\n' :: (w2 ++ ['\n']))) <:+: s) :
    convertHtmlToMarkdownL s = jsTrimL s := by
  unfold convertHtmlToMarkdownL
  rw [replaceStage_id_of_no_lt (fun c r hc => headingTm_not_lt hc) hlt]
  rw [replaceStage_id_of_no_lt (fun c r hc => headingTm_not_lt hc) hlt]
  rw [replaceStage_id_of_no_lt (fun c r hc => headingTm_not_lt hc) hlt]
  rw [replaceStage_id_of_no_lt (fun c r hc => headingTm_not_lt hc) hlt]
  rw [replaceStage_id_of_no_lt (fun c r hc => headingTm_not_lt hc) hlt]
  rw [replaceStage_id_of_no_lt (fun c r hc => headingTm_not_lt hc) hlt]
  rw [replaceStage_id_of_no_lt (fun c r hc => pTm_not_lt hc) hlt]
  rw [replaceStage_id_of_no_lt (fun c r hc => wrapTm_not_lt hc) hlt]
  rw [replaceStage_id_of_no_lt (fun c r hc => wrapTm_not_lt hc) hlt]
  rw [replaceStage_id_of_no_lt (fun c r hc => codeTm_not_lt hc) hlt]
  rw [replaceStage_id_of_no_lt (fun c r hc => preTm_not_lt hc) hlt]
  rw [replaceStage_id_of_no_lt (fun c r hc => aTm_not_lt hc) hlt]
  rw [replaceStage_id_of_no_lt (fun c r hc => imgSrcAltTm_not_lt hc) hlt]
  rw [replaceStage_id_of_no_lt (fun c r hc => imgAltSrcTm_not_lt hc) hlt]
  rw [replaceStage_id_of_no_lt (fun c r hc => imgSrcTm_not_lt hc) hlt]
  rw [replaceStage_id_of_no_lt (fun c r hc => ulTm_not_lt hc) hlt]
  rw [replaceStage_id_of_no_lt (fun c r hc => olTm_not_lt hc) hlt]
  rw [replaceStage_id_of_no_lt (fun c r hc => brTm_not_lt hc) hlt]
  rw [replaceStage_id_of_no_lt (fun c r hc => stripTm_not_lt hc) hlt]
  rw [replaceStage_literal_id hamp]
  rw [replaceStage_literal_id hltE]
  rw [replaceStage_literal_id hgtE]
  rw [replaceStage_literal_id hquot]
  rw [replaceStage_literal_id hapos]
  rw [replaceStage_collapse_id hcol]

/-! ## Helper lemmas: the fragment loop -/

/-- The per-element outcome of the fragment loop: the trimmed markdown when
conversion succeeded and is non-blank, `none` otherwise. -/
def survivingFragment (extract : Extractor) (element : String) :
    Option String :=
  match convertElementToMarkdown extract element with
  | some markdown =>
    if jsTrim markdown == "" then none else some (jsTrim markdown)
  | none => none

theorem sections_foldl_general (extract : Extractor) :
    ∀ (elements : List String) (acc : List String),
      elements.foldl
        (fun acc element =>
          match convertElementToMarkdown extract element with
          | some markdown =>
            if jsTrim markdown == "" then acc else acc ++ [jsTrim markdown]
          | none => acc)
        acc
      = acc ++ elements.filterMap (survivingFragment extract) := by
  intro elements
  induction elements with
  | nil => intro acc; simp
  | cons e t ih =>
    intro acc
    rw [ List.foldl_cons, ih]
    cases hconv : convertElementToMarkdown extract e with
    | none =>
      simp only [hconv]
      rw [ List.filterMap_cons_none (by simp [survivingFragment, hconv])]
    | some md =>
      by_cases hb : (jsTrim md == "") = true
      · simp only [hconv, if_pos hb]
        rw [ List.filterMap_cons_none (by simp [survivingFragment, hconv, hb])]
      · simp only [hconv, if_neg hb]
        rw [ List.filterMap_cons_some
          (show survivingFragment extract e = some (jsTrim md) by
            simp [survivingFragment, hconv, hb])]
        simp

/-- The fragment loop equals an order-preserving `filterMap`. -/
theorem sections_eq_filterMap (extract : Extractor) (elements : List String) :
    convertElementsToMarkdownSections extract elements =
      elements.filterMap (survivingFragment extract) := by
  unfold convertElementsToMarkdownSections
  rw [sections_foldl_general]
  simp

/-- What a surviving fragment looks like. -/
theorem survivingFragment_some {extract : Extractor} {e x : String}
    (h : survivingFragment extract e = some x) :
    ∃ md, convertElementToMarkdown extract e = some md ∧
      jsTrim md ≠ "" ∧ x = jsTrim md := by
  unfold survivingFragment at h
  cases hconv : convertElementToMarkdown extract e with
  | none => rw [hconv] at h; exact absurd h (by simp)
  | some md =>
    rw [hconv] at h
    have h2 : (if (jsTrim md == "") = true then none
        else some (jsTrim md)) = some x := h
    by_cases hb : (jsTrim md == "") = true
    · rw [if_pos hb] at h2
      exact absurd h2 (by simp)
    · rw [if_neg hb] at h2
      refine ⟨md, rfl, by simpa using hb, by simpa using h2.symm⟩

/-- The joined sections start with the first section. -/
theorem joinSep_cons_data (sep : String) (s : String) (rest : List String) :
    ∃ t, (joinSep sep (s :: rest)).data = s.data ++ t := by
  cases rest with
  | nil => exact ⟨[], by simp [joinSep]⟩
  | cons s2 r2 =>
    refine ⟨sep.data ++ (joinSep sep (s2 :: r2)).data, ?_⟩
    show (s ++ sep ++ joinSep sep (s2 :: r2)).data = _
    simp [ String.data_append]

/-! ## Witness fixtures -/

/-- An oracle whose extraction always succeeds with plain content. -/
def sampleExtractorHello : Extractor :=
  fun _ => .ok (some { content := some "hello" })

/-- An oracle whose extraction always returns `null`. -/
def extractorNull : Extractor := fun _ => .ok none

/-- An oracle producing whitespace-only content. -/
def extractorBlank : Extractor := fun _ => .ok (some { content := some " " })

/-- An oracle producing content that renders to the empty string. -/
def extractorBlankRender : Extractor :=
  fun _ => .ok (some { content := some "<br>" })

/-- An oracle that always throws a non-`Error` value. -/
def extractorThrows : Extractor := fun _ => .error ⟨none⟩

/-- An oracle succeeding on the element `"e1"` and throwing otherwise. -/
def extractorE1 : Extractor := fun h =>
  if h == "e1" then .ok (some { content := some "one" }) else .error ⟨none⟩

/-- A plain document with a body and no marker elements. -/
def sampleDoc : Document := { body := some "<body>x</body>", claudeElements := [] }

/-! ## Claims -/

/-- C2: the site router selects the claude.ai strategy exactly when the
hostname contains the substring `"claude.ai"` (including the three spec
examples); an absent or empty hostname routes to the generic strategy,
with no error path, and `convertPageToMarkdown` dispatches on this test. -/
theorem claim_C2_site_router (loc : Option String) :
    (∀ h, loc = some h →
      (isClaudeAiSite loc = true ↔ CLAUDE_AI_DOMAIN.data <:+: h.data)) ∧
    (loc = none → isClaudeAiSite loc = false) ∧
    isClaudeAiSite (some "") = false ∧
    isClaudeAiSite (some "claude.ai") = true ∧
    isClaudeAiSite (some "www.claude.ai") = true ∧
    isClaudeAiSite (some "fake-claude.ai.evil.com") = true ∧
    (∀ extract doc, isClaudeAiSite loc = true →
      convertPageToMarkdown extract loc doc = processClaudeAiPage extract doc) ∧
    (∀ extract doc, isClaudeAiSite loc = false →
      convertPageToMarkdown extract loc doc = genericPath extract doc) := by
  refine ⟨?_, ?_, by decide, by decide, by decide, by decide, ?_, ?_⟩
  · intro h hl
    subst hl
    exact containsSubstr_iff
  · intro hl
    subst hl
    rfl
  · intro extract doc hroute
    simp [convertPageToMarkdown, hroute]
  · intro extract doc hroute
    simp [convertPageToMarkdown, hroute]

theorem claim_C2_site_router_witness :
    isClaudeAiSite (some "www.claude.ai") = true ↔
      CLAUDE_AI_DOMAIN.data <:+: ("www.claude.ai").data :=
  (claim_C2_site_router (some "www.claude.ai")).1 "www.claude.ai" rfl

/-- C8: on a claude.ai-routed document with zero marker elements, the
result is `Err` with the no-matching-elements reason. -/
theorem claim_C8_no_elements (extract : Extractor) (loc : Option String)
    (doc : Document) (hroute : isClaudeAiSite loc = true)
    (helems : doc.claudeElements = []) :
    convertPageToMarkdown extract loc doc =
      ConvertResult.err CLAUDE_AI_NO_ELEMENTS_ERROR := by
  simp [convertPageToMarkdown, hroute, processClaudeAiPage,
    extractClaudeAiElements, helems]

theorem claim_C8_no_elements_witness :
    convertPageToMarkdown extractorNull (some "claude.ai")
      { body := none, claudeElements := [] } =
      ConvertResult.err CLAUDE_AI_NO_ELEMENTS_ERROR :=
  claim_C8_no_elements extractorNull (some "claude.ai")
    { body := none, claudeElements := [] } (by decide) rfl

/-- C10: on the generic path, a document whose `body` is null makes the
entry point return `Err` (the `TypeError` from reading `body.outerHTML`
is caught inside the protected region) instead of raising. -/
theorem claim_C10_null_body (extract : Extractor) (loc : Option String)
    (doc : Document) (hroute : isClaudeAiSite loc = false)
    (hbody : doc.body = none) :
    convertPageToMarkdown extract loc doc =
      ConvertResult.err (errorToMessage bodyNullError) := by
  simp [convertPageToMarkdown, hroute, genericPath, genericTryBody,
    getBodyOuterHTML, hbody]

theorem claim_C10_null_body_witness :
    convertPageToMarkdown sampleExtractorHello none
      { body := none, claudeElements := [] } =
      ConvertResult.err (errorToMessage bodyNullError) :=
  claim_C10_null_body sampleExtractorHello none
    { body := none, claudeElements := [] } rfl rfl

/-- C4: on the generic path, a null extraction yields
`Err(EXTRACTION_ERROR)`, and an extraction whose `content` field is
missing, empty, or blank after trimming yields
`Err(CONTENT_PROPERTY_ERROR)`. -/
theorem claim_C4_generic_error_taxonomy (extract : Extractor)
    (loc : Option String) (doc : Document) (html : String)
    (hroute : isClaudeAiSite loc = false) (hbody : doc.body = some html) :
    (extractPageContent extract html = none →
      convertPageToMarkdown extract loc doc =
        ConvertResult.err EXTRACTION_ERROR) ∧
    (∀ ec, extractPageContent extract html = some ec →
      (ec.content = none ∨ ∃ content, ec.content = some content ∧
        (content = "" ∨ jsTrim content = "")) →
      convertPageToMarkdown extract loc doc =
        ConvertResult.err CONTENT_PROPERTY_ERROR) := by
  constructor
  · intro hext
    simp [convertPageToMarkdown, hroute, genericPath, genericTryBody,
      getBodyOuterHTML, hbody, hext]
  · intro ec hext hcont
    have hcm : convertToMarkdown (some ec) =
        .error ⟨some CONTENT_PROPERTY_ERROR⟩ := by
      rcases hcont with hnone | ⟨content, hsome, hblank⟩
      · simp [convertToMarkdown, hnone]
      · rcases hblank with h0 | h0 <;> simp [convertToMarkdown, hsome, h0]
    simp [convertPageToMarkdown, hroute, genericPath, genericTryBody,
      getBodyOuterHTML, hbody, hext, hcm, errorToMessage]

theorem claim_C4_generic_error_taxonomy_witness :
    convertPageToMarkdown extractorNull none sampleDoc =
        ConvertResult.err EXTRACTION_ERROR ∧
    convertPageToMarkdown extractorBlank none sampleDoc =
        ConvertResult.err CONTENT_PROPERTY_ERROR :=
  ⟨(claim_C4_generic_error_taxonomy extractorNull none sampleDoc
      "<body>x</body>" rfl rfl).1 rfl,
   (claim_C4_generic_error_taxonomy extractorBlank none sampleDoc
      "<body>x</body>" rfl rfl).2 { content := some " " } rfl
      (Or.inr ⟨" ", rfl, Or.inr (by decide)⟩)⟩

/-- C5: no exception escapes `convertPageToMarkdown`: a throw inside the
generic path becomes `Err` whose reason is the exception message when the
thrown value is an `Error` and the fixed default string otherwise; on the
fragment path a throwing extraction is swallowed per element. -/
theorem claim_C5_no_exception_escapes (extract : Extractor)
    (loc : Option String) (doc : Document) :
    (∀ e, isClaudeAiSite loc = false →
      genericTryBody extract doc = .error e →
      convertPageToMarkdown extract loc doc =
        ConvertResult.err (errorToMessage e)) ∧
    (∀ m, errorToMessage ⟨some m⟩ = m) ∧
    errorToMessage ⟨none⟩ = DEFAULT_ERROR_MESSAGE ∧
    (∀ element e, extract element = .error e →
      convertElementToMarkdown extract element = none) := by
  refine ⟨?_, fun m => rfl, rfl, ?_⟩
  · intro e hroute herr
    simp [convertPageToMarkdown, hroute, genericPath, herr]
  · intro element e herr
    simp [convertElementToMarkdown, extractPageContent, herr]

theorem claim_C5_no_exception_escapes_witness :
    convertPageToMarkdown extractorBlank none
        { body := none, claudeElements := [] } =
      ConvertResult.err (errorToMessage bodyNullError) ∧
    errorToMessage ⟨some "m"⟩ = "m" ∧
    convertElementToMarkdown extractorThrows "x" = none :=
  ⟨(claim_C5_no_exception_escapes extractorBlank none
      { body := none, claudeElements := [] }).1 bodyNullError rfl rfl,
   (claim_C5_no_exception_escapes extractorBlank none sampleDoc).2.1 "m",
   (claim_C5_no_exception_escapes extractorThrows none sampleDoc).2.2.2
     "x" ⟨none⟩ rfl⟩

/-- C1: a returned `Ok` markdown is never empty or whitespace-only, and a
render that trims to the empty string is reported as `Err` on both the
generic and the site-specific path. -/
theorem claim_C1_ok_nonblank (extract : Extractor) (loc : Option String)
    (doc : Document) :
    (∀ md, convertPageToMarkdown extract loc doc = ConvertResult.ok md →
      jsTrim md ≠ "") ∧
    (isClaudeAiSite loc = false → ∀ html ec md, doc.body = some html →
      extractPageContent extract html = some ec →
      convertToMarkdown (some ec) = .ok md → jsTrim md = "" →
      convertPageToMarkdown extract loc doc =
        ConvertResult.err EMPTY_MARKDOWN_ERROR) ∧
    (isClaudeAiSite loc = true → doc.claudeElements ≠ [] →
      convertElementsToMarkdownSections extract doc.claudeElements = [] →
      convertPageToMarkdown extract loc doc =
        ConvertResult.err EMPTY_MARKDOWN_ERROR) := by
  refine ⟨?_, ?_, ?_⟩
  · intro md hok
    by_cases hroute : isClaudeAiSite loc = true
    · -- site-specific path
      rw [convertPageToMarkdown, if_pos hroute] at hok
      unfold processClaudeAiPage at hok
      by_cases h0 : (((extractClaudeAiElements doc).length == 0)) = true
      · rw [if_pos h0] at hok
        exact absurd hok (by simp)
      · rw [if_neg h0] at hok
        by_cases h1 : ((convertElementsToMarkdownSections extract
            (extractClaudeAiElements doc)).length == 0) = true
        · rw [if_pos h1] at hok
          exact absurd hok (by simp)
        · rw [if_neg h1] at hok
          have hmd : combineMarkdownSections (convertElementsToMarkdownSections
              extract (extractClaudeAiElements doc)) = md := by
            simpa using hok
          -- the section list is non-empty
          cases hsecs : convertElementsToMarkdownSections extract
              (extractClaudeAiElements doc) with
          | nil => rw [hsecs] at h1; exact absurd (by decide) h1
          | cons x0 restS =>
            rw [hsecs] at hmd
            -- x0 is a surviving fragment: a non-blank trim
            have hmem : x0 ∈ (extractClaudeAiElements doc).filterMap
                (survivingFragment extract) := by
              rw [← sections_eq_filterMap, hsecs]
              exact List.mem_cons_self _ _
            obtain ⟨e, _, hfrag⟩ := List.mem_filterMap.mp hmem
            obtain ⟨y, _, hyne, hxy⟩ := survivingFragment_some hfrag
            -- a non-whitespace character of x0
            have hx0data : x0.data = jsTrimL y.data := by rw [hxy]; rfl
            have hynil : jsTrimL y.data ≠ [] := by
              intro hnil
              apply hyne
              show String.mk (jsTrimL y.data) = ""
              rw [hnil]
            obtain ⟨cch, hcmem, hcns⟩ := jsTrimL_ne_nil_exists hynil
            -- that character survives into the joined markdown
            obtain ⟨t, hjoin⟩ := joinSep_cons_data SECTION_SEPARATOR x0 restS
            have hcmd : cch ∈ md.data := by
              rw [← hmd]
              show cch ∈ (joinSep SECTION_SEPARATOR (x0 :: restS)).data
              rw [hjoin]
              exact List.mem_append_left _ (by rw [hx0data]; exact hcmem)
            intro htrim
            have hnil2 : jsTrimL md.data = [] := by
              have := congrArg String.data htrim
              simpa [jsTrim] using this
            have hall := jsTrimL_eq_nil_iff.mp hnil2
            rw [hall cch hcmd] at hcns
            exact absurd hcns (by simp)
    · -- generic path
      rw [convertPageToMarkdown, if_neg hroute] at hok
      unfold genericPath at hok
      cases hg : genericTryBody extract doc with
      | error e =>
        rw [hg] at hok
        have h2 : ConvertResult.err (errorToMessage e) =
            ConvertResult.ok md := hok
        simp at h2
      | ok r =>
        rw [hg] at hok
        have hr : r = ConvertResult.ok md := hok
        subst hr
        unfold genericTryBody at hg
        split at hg
        · exact absurd hg (by simp)
        · split at hg
          · simp at hg
          · split at hg
            · exact absurd hg (by simp)
            · split at hg
              · simp at hg
              · rename_i htr
                have hmm : _ = md := (by simpa using hg)
                subst hmm
                simpa using htr
  · intro hroute html ec md hbody hext hcm htrim
    have hroute2 : ¬ isClaudeAiSite loc = true := by simp [hroute]
    simp [convertPageToMarkdown, hroute2, genericPath, genericTryBody,
      getBodyOuterHTML, hbody, hext, hcm, htrim]
  · intro hroute hne hsecs
    have h0 : ((extractClaudeAiElements doc).length == 0) = false := by
      simpa [extractClaudeAiElements, List.length_eq_zero] using hne
    simp [convertPageToMarkdown, hroute, processClaudeAiPage, h0, hsecs,
      extractClaudeAiElements, hne]

theorem claim_C1_ok_nonblank_witness :
    jsTrim "hello" ≠ "" ∧
    convertPageToMarkdown extractorBlankRender none sampleDoc =
      ConvertResult.err EMPTY_MARKDOWN_ERROR ∧
    convertPageToMarkdown extractorNull (some "claude.ai")
        { body := some "b", claudeElements := ["e"] } =
      ConvertResult.err EMPTY_MARKDOWN_ERROR :=
  ⟨(claim_C1_ok_nonblank sampleExtractorHello none sampleDoc).1 "hello"
      (by decide),
   (claim_C1_ok_nonblank extractorBlankRender none sampleDoc).2.1 rfl
      "<body>x</body>" { content := some "<br>" } "" rfl rfl rfl
      (by decide),
   (claim_C1_ok_nonblank extractorNull (some "claude.ai")
      { body := some "b", claudeElements := ["e"] }).2.2 (by decide)
      (by decide) (by decide)⟩

/-- C3: on the site-specific path with at least one marker element, the
fragment loop is an order-preserving `filterMap` of per-element outcomes;
the result is `Ok` of the surviving trimmed fragments joined by the
section separator whenever at least one survives, and `Err` exactly when
every element fails. -/
theorem claim_C3_fragment_merge (extract : Extractor) (loc : Option String)
    (doc : Document) (hroute : isClaudeAiSite loc = true)
    (hne : doc.claudeElements ≠ []) :
    convertElementsToMarkdownSections extract doc.claudeElements =
      doc.claudeElements.filterMap (survivingFragment extract) ∧
    (convertElementsToMarkdownSections extract doc.claudeElements = [] ↔
      ∀ e ∈ doc.claudeElements, survivingFragment extract e = none) ∧
    (convertElementsToMarkdownSections extract doc.claudeElements ≠ [] →
      convertPageToMarkdown extract loc doc =
        ConvertResult.ok (joinSep SECTION_SEPARATOR
          (convertElementsToMarkdownSections extract doc.claudeElements))) ∧
    (convertElementsToMarkdownSections extract doc.claudeElements = [] →
      convertPageToMarkdown extract loc doc =
        ConvertResult.err EMPTY_MARKDOWN_ERROR) := by
  have h0 : ((extractClaudeAiElements doc).length == 0) = false := by
    simpa [extractClaudeAiElements, List.length_eq_zero] using hne
  refine ⟨sections_eq_filterMap extract doc.claudeElements, ?_, ?_, ?_⟩
  · rw [sections_eq_filterMap]
    exact List.filterMap_eq_nil_iff
  · intro hsome
    have h1 : ((convertElementsToMarkdownSections extract
        doc.claudeElements).length == 0) = false := by
      simpa [ List.length_eq_zero] using hsome
    simp [convertPageToMarkdown, hroute, processClaudeAiPage, h0, h1,
      extractClaudeAiElements, combineMarkdownSections, hne, hsome]
  · intro hnil
    simp [convertPageToMarkdown, hroute, processClaudeAiPage, h0, hnil,
      extractClaudeAiElements, hne]

theorem claim_C3_fragment_merge_witness :
    convertPageToMarkdown extractorE1 (some "claude.ai")
        { body := some "b", claudeElements := ["e1", "e2"] } =
      ConvertResult.ok "one" := by
  have h := (claim_C3_fragment_merge extractorE1 (some "claude.ai")
      { body := some "b", claudeElements := ["e1", "e2"] } (by decide)
      (by decide)).2.2.1 (by decide)
  rw [h]
  decide

set_option maxHeartbeats 2000000 in
/-- C6: the bug witness for ordered lists.  The source replaces each
`<li>` inside `<ol>` through a *function* replacer returning the template
string `${counter++}. $1\n`; a function replacer performs no capture
substitution, so the renderer numbers the items from 1 but emits the two
literal characters `$1` in place of each item text, instead of the item
text content the spec describes. -/
theorem claim_C6_ol_items_literal_dollar :
    convertHtmlToMarkdown "<ol><li>a</li><li>b</li></ol>" =
      "1. $1\n2. $1" ∧
    convertHtmlToMarkdown "<ol><li>a</li><li>b</li></ol>" ≠
      "1. a\n2. b" := by
  constructor
  · decide
  · decide

/-- C7 (counterexample): the renderer is not the identity-plus-trim on all
tag-free text: an HTML entity reference is still decoded, so
`"a&amp;b"` (which contains no `<`) renders to `"a&b"`, not to itself. -/
theorem claim_C7_counterexample :
    ('<' ∉ ("a&amp;b").data) ∧
    convertHtmlToMarkdown "a&amp;b" ≠ jsTrim "a&amp;b" := by
  constructor
  · decide
  · decide

/-- C7 (amended): on text containing no `<`, no occurrence of the five
HTML entity references the renderer decodes, and no three newlines
separated only by whitespace (the collapse pattern), rendering returns the
same text trimmed of leading and trailing whitespace. -/
theorem claim_C7_plain_text_amended (s : String)
    (hlt : '<' ∉ s.data)
    (hent : ∀ pat ∈ ["&amp;", "&lt;", "&gt;", "&quot;", "&#39;"],
      ¬ pat.data <:+: s.data)
    (hcol : ¬ ∃ w1 w2, (∀ d ∈ w1, jsIsSpace d = true) ∧
        (∀ d ∈ w2, jsIsSpace d = true) ∧
        ('\n' :: (w1 ++ '\n' :: (w2 ++ ['\n']))) <:+: s.data) :
    convertHtmlToMarkdown s = jsTrim s := by
  have h := convertHtmlToMarkdownL_plain hlt
    (hent "&amp;" (by simp)) (hent "&lt;" (by simp)) (hent "&gt;" (by simp))
    (hent "&quot;" (by simp)) (hent "&#39;" (by simp)) hcol
  unfold convertHtmlToMarkdown jsTrim
  rw [h]

theorem claim_C7_plain_text_amended_witness :
    convertHtmlToMarkdown "  hello world  " = jsTrim "  hello world  " := by
  apply claim_C7_plain_text_amended
  · decide
  · intro pat hpat hinf
    have hamp : '&' ∈ ("  hello world  ").data := by
      simp only [ List.mem_cons, List.mem_singleton] at hpat
      rcases hpat with h | h | h | h | h | h
      all_goals first
        | exact hinf.subset (by rw [h]; decide)
        | exact absurd h (by simp)
    exact absurd hamp (by decide)
  · rintro ⟨w1, w2, _, _, hinf⟩
    have hnl : '\n' ∈ ("  hello world  ").data := hinf.subset (by simp)
    exact absurd hnl (by decide)

/-- C9: for every successful conversion, the clipboard text is exactly the
`"# {title}\n\nURL: {url}"` header, the fixed separator, and the markdown
body, with nothing else; on a failed conversion nothing reaches the
clipboard. -/
theorem claim_C9_clipboard_assembly (title url markdown : String)
    (htitle : title ≠ "") :
    clipboardPayload (ConvertResult.ok markdown) title (some url) =
      some ("# " ++ title ++ "\n\nURL: " ++ url ++
        "\n\n---\n\n" ++ markdown) ∧
    (∀ res : ConvertResult, ∀ err, res = ConvertResult.err err →
      clipboardPayload res title (some url) = none) := by
  constructor
  · have hhdr : createMarkdownHeader title (some url) =
        "# " ++ title ++ "\n\nURL: " ++ url := by
      show ("# " ++ (if (title == "") = true then "無題" else title) ++
          "\n\nURL: " ++ (if (url == "") = true then "" else url)) = _
      rw [if_neg (by simpa using htitle)]
      by_cases hu : (url == "") = true
      · rw [if_pos hu, (by simpa using hu : url = "")]
      · rw [if_neg hu]
    show some (createMarkdownHeader title (some url) ++
      MARKDOWN_SEPARATOR ++ markdown) = _
    rw [hhdr]
    rfl
  · intro res err hres
    subst hres
    rfl

theorem claim_C9_clipboard_assembly_witness :
    clipboardPayload (ConvertResult.ok "BODY") "Title" (some "http://u") =
      some ("# " ++ "Title" ++ "\n\nURL: " ++ "http://u" ++
        "\n\n---\n\n" ++ "BODY") :=
  (claim_C9_clipboard_assembly "Title" "http://u" "BODY" (by decide)).1

end PageToMarkdown
